import Mathlib

/-!
Verification of the conflict-tracker ingestion scripts
(src/scripts/twitter-to-events.py, src/scripts/safe-update.py,
src/scripts/translate-existing-events.py).

Modelling conventions:
  - Python dictionaries holding event records are modelled by the structure
    Event below.  A field that the scripts read with dict.get is modelled
    as an Option when the distinction between an absent key and a present
    value matters to the code under study.  The tweetId field is modelled
    as Option (Option String): none models an absent key, some none models
    a key present with a null value, some (some s) a string value.
  - Python strings are modelled as String, except where the code performs
    character-level work (lexicographic comparison of time stamps,
    truncation, regular-expression scanning); there List Char is used and
    the comparison is by Unicode code point, exactly as Python compares str
    values.
  - Python list.sort(key, reverse=True) is a stable sort; a stable sort is
    uniquely determined by the key order and the input order, so it is
    modelled by List.insertionSort with the relation eventR below, which
    is a stable sort with respect to the same order.
-/

/-- Code-point lexicographic comparison of character lists; this is exactly
how Python compares two str values (time stamps in merge_events are compared
with this order by list.sort). -/
def strLe : List Char → List Char → Bool
  | [], _ => true
  | _ :: _, [] => false
  | a :: as, b :: bs =>
    if a.toNat < b.toNat then true
    else if b.toNat < a.toNat then false
    else strLe as bs

theorem strLe_total (a b : List Char) : strLe a b = true ∨ strLe b a = true := by
  induction a generalizing b with
  | nil => left; rfl
  | cons x xs ih =>
    cases b with
    | nil => right; rfl
    | cons y ys =>
      rcases Nat.lt_trichotomy x.toNat y.toNat with h | h | h
      · left; simp [strLe, h]
      · have hxy : ¬ x.toNat < y.toNat := by omega
        have hyx : ¬ y.toNat < x.toNat := by omega
        rcases ih ys with h' | h'
        · left; simp [strLe, hxy, hyx, h']
        · right; simp [strLe, hxy, hyx, h']
      · right; simp [strLe, h]

theorem strLe_cons_iff (x y : Char) (xs ys : List Char) :
    strLe (x :: xs) (y :: ys) = true ↔
      x.toNat < y.toNat ∨ (x.toNat = y.toNat ∧ strLe xs ys = true) := by
  simp only [strLe]
  split_ifs with h1 h2
  · simp [h1]
  · simp only [Bool.false_eq_true, false_iff]
    rintro (h | ⟨h, _⟩) <;> omega
  · have hxy : x.toNat = y.toNat := by omega
    simp [hxy]

theorem strLe_trans {a b c : List Char} (hab : strLe a b = true)
    (hbc : strLe b c = true) : strLe a c = true := by
  induction a generalizing b c with
  | nil => rfl
  | cons x xs ih =>
    cases b with
    | nil => simp [strLe] at hab
    | cons y ys =>
      cases c with
      | nil => simp [strLe] at hbc
      | cons z zs =>
        rw [strLe_cons_iff] at hab hbc ⊢
        rcases hab with h1 | ⟨h1, h1'⟩ <;> rcases hbc with h2 | ⟨h2, h2'⟩
        · left; omega
        · left; omega
        · left; omega
        · exact Or.inr ⟨by omega, ih h1' h2'⟩

/-- One translation record, the value of translations[lang] in an event
dictionary.  Each field is Option-valued: none models an absent key; an
empty string models a present but empty value (both are falsy in Python). -/
structure TransEntry where
  title : Option String
  desc : Option String
  locationName : Option String
deriving DecidableEq

/-- The translations mapping of an event, with one optional entry per
supported language (LANGUAGES = zh, en, ar). -/
structure Translations where
  zh : Option TransEntry
  en : Option TransEntry
  ar : Option TransEntry
deriving DecidableEq

/-- An event record, as produced by parse_tweet_to_event
(src/scripts/twitter-to-events.py) and by safe-update.py, and as stored in
the events list of events.json.  location models the [lat, lon] pair (the
values used by the scripts are numerically exact).  time is the ISO-8601
time stamp as a character list. -/
structure Event where
  id : Option String
  type : String
  country : String
  title : String
  desc : String
  location : Int × Int
  locationName : String
  time : List Char
  source : String
  tweetId : Option (Option String)
  url : String
  isNew : Bool
  translations : Translations
deriving DecidableEq

/-- Identity key used by merge_events: e.get("tweetId", e.get("id")).
Python dict.get with a default returns the stored value whenever the key is
present, even when that value is None; only an absent key falls back to the
id field. -/
def eventKey (e : Event) : Option String :=
  match e.tweetId with
  | some v => v
  | none => e.id

/-- The set of identity keys of the existing events
(existing_tweet_ids in merge_events, src/scripts/twitter-to-events.py
line 569), modelled as the list of keys. -/
def existingKeys (existing : List Event) : List (Option String) :=
  existing.map eventKey

/-- unique_new_events in merge_events (src/scripts/twitter-to-events.py
lines 572-575): the new events whose identity key is not among the existing
keys.  The seen set is not extended while filtering, exactly as in the
source. -/
def uniqueNewEvents (existing newEvents : List Event) : List Event :=
  newEvents.filter (fun e => decide (eventKey e ∉ existingKeys existing))

/-- Sort relation of merge_events: all_events.sort(key=time, reverse=True).
eventR a b holds when a may be placed before b, that is when the time of a
is at least the time of b. -/
def eventR (a b : Event) : Prop := strLe b.time a.time = true

instance : DecidableRel eventR := fun _ _ => instDecidableEqBool _ _

instance : IsTotal Event eventR :=
  ⟨fun a b => (strLe_total b.time a.time).imp id id⟩

instance : IsTrans Event eventR :=
  ⟨fun _ _ _ hab hbc => strLe_trans hbc hab⟩

/-- merge_events (src/scripts/twitter-to-events.py lines 566-582): drop new
events whose identity key already occurs among the existing events,
concatenate existing ++ unique new, stable-sort by time most recent first,
and truncate to maxEvents. -/
def merge_events (existing newEvents : List Event) (maxEvents : Nat) : List Event :=
  (List.insertionSort eventR (existing ++ uniqueNewEvents existing newEvents)).take maxEvents

/-- C1: for every list of existing events, every list of new events and
every cap, the merge result has length at least min(existing count, cap);
in particular when the existing count is at most the cap the merge never
shrinks below the existing count. -/
theorem C1_merge_length_lower_bound (existing newEvents : List Event) (maxEvents : Nat) :
    min existing.length maxEvents ≤ (merge_events existing newEvents maxEvents).length := by
  unfold merge_events
  rw [List.length_take, List.length_insertionSort, List.length_append]
  omega

/-- Helper for concrete test events: an event with the given tweetId field,
id field and time stamp, all other fields set to fixed defaults. -/
def mkEv (tid : Option (Option String)) (i : Option String) (t : String) : Event :=
  { id := i, type := "intel", country := "iran", title := "", desc := "",
    location := (28, 43), locationName := "", time := t.toList, source := "",
    tweetId := tid, url := "", isNew := false,
    translations := { zh := none, en := none, ar := none } }

/-- Every member of the merge result comes from the existing events or from
the filtered new events. -/
theorem mem_of_mem_merge {x : Event} {ex nw : List Event} {m : Nat}
    (h : x ∈ merge_events ex nw m) : x ∈ ex ++ uniqueNewEvents ex nw := by
  unfold merge_events at h
  have h1 : x ∈ List.insertionSort eventR (ex ++ uniqueNewEvents ex nw) :=
    (List.take_sublist _ _).subset h
  exact (List.perm_insertionSort eventR _).mem_iff.mp h1

/-- C10: an event whose tweetId field is present with a null value takes
null as its identity key, with no fallback to its id; consequently, when
some existing event has a null identity key, every new event whose tweetId
is present-and-null is dropped by merge as a duplicate, whatever its id. -/
theorem C10_null_tweetId_key (ex nw : List Event) (m : Nat) (n : Event)
    (hkey : ∃ e ∈ ex, eventKey e = none)
    (hn : n.tweetId = some none)
    (hnotex : n ∉ ex) :
    eventKey n = none ∧ n ∉ merge_events ex nw m := by
  have hkn : eventKey n = none := by simp [eventKey, hn]
  refine ⟨hkn, fun hmem => ?_⟩
  rcases List.mem_append.mp (mem_of_mem_merge hmem) with h | h
  · exact hnotex h
  · have h2 := (List.mem_filter.mp h).2
    simp only [decide_eq_true_eq] at h2
    apply h2
    rw [hkn]
    rcases hkey with ⟨e, he, hke⟩
    exact List.mem_map.mpr ⟨e, he, hke⟩

def evNullKey : Event := mkEv (some none) (some "old-1") "2024-01-01"

def evNullNew : Event := mkEv (some none) (some "new-2") "2024-01-02"

theorem C10_witness :
    eventKey evNullNew = none ∧ evNullNew ∉ merge_events [evNullKey] [evNullNew] 100 :=
  C10_null_tweetId_key [evNullKey] [evNullNew] 100 evNullNew
    (by decide) (by decide) (by decide)

def evDupA : Event := mkEv (some (some "x")) (some "a") "2024-01-02"

def evDupB : Event := mkEv (some (some "x")) (some "b") "2024-01-01"

/-- C3 counterexample: with an empty (hence duplicate-free) existing store
and a new batch of two distinct events sharing the identity key x, the
merge keeps both, so the merged store holds the key x twice. -/
theorem C3_counterexample :
    (List.map eventKey ([] : List Event)).Nodup ∧
    ¬ ((merge_events [] [evDupA, evDupB] 100).map eventKey).Nodup := by
  constructor
  · simp
  · decide

/-- C3 amended: the identity key is unique in the merged store provided the
existing events have pairwise-distinct keys and the new batch also has
pairwise-distinct keys; duplicates inside the new batch itself are not
removed by merge_events, whose filter only compares against existing keys. -/
theorem C3_amended (ex nw : List Event) (m : Nat)
    (hex : (ex.map eventKey).Nodup) (hnw : (nw.map eventKey).Nodup) :
    ((merge_events ex nw m).map eventKey).Nodup := by
  have hfil : (uniqueNewEvents ex nw).Sublist nw := List.filter_sublist _
  have hfilnodup : ((uniqueNewEvents ex nw).map eventKey).Nodup :=
    List.Nodup.sublist (hfil.map eventKey) hnw
  have hdisj : (ex.map eventKey).Disjoint ((uniqueNewEvents ex nw).map eventKey) := by
    intro k hkex hkfil
    rcases List.mem_map.mp hkfil with ⟨e, he, hke⟩
    have h2 := (List.mem_filter.mp he).2
    simp only [decide_eq_true_eq] at h2
    exact h2 (hke ▸ hkex)
  have happ : ((ex ++ uniqueNewEvents ex nw).map eventKey).Nodup := by
    rw [List.map_append, List.nodup_append]
    exact ⟨hex, hfilnodup, hdisj⟩
  have hperm :=
    (List.perm_insertionSort eventR (ex ++ uniqueNewEvents ex nw)).map eventKey
  have hsort : ((List.insertionSort eventR (ex ++ uniqueNewEvents ex nw)).map eventKey).Nodup :=
    hperm.nodup_iff.mpr happ
  unfold merge_events
  rw [List.map_take]
  exact List.Nodup.sublist (List.take_sublist m _) hsort

def evKeyA : Event := mkEv (some (some "a")) none "2024-03-01"

def evKeyB : Event := mkEv (some (some "b")) none "2024-03-02"

theorem C3_witness :
    ((merge_events [evKeyA] [evKeyB] 100).map eventKey).Nodup :=
  C3_amended [evKeyA] [evKeyB] 100 (by decide) (by decide)

def evC4K : Event := mkEv (some (some "K")) none "2024-01-01"

def evC4N : Event := mkEv (some (some "K")) none "2024-01-05"

def evC4M : Event := mkEv (some (some "A")) none "2024-01-04"

/-- C4 counterexample: with a cap of 1, existing event keyed K at day 1, and
a new batch holding a newer event keyed K (day 5) and an event keyed A
(day 4), the first merge keeps only the day-4 event keyed A; re-running the
merge with the same batch now re-admits the day-5 event keyed K, so the
second result differs from the first. -/
theorem C4_counterexample :
    merge_events (merge_events [evC4K] [evC4N, evC4M] 1) [evC4N, evC4M] 1 ≠
      merge_events [evC4K] [evC4N, evC4M] 1 := by decide

/-- A raw tweet as read by safe-update.py: the id field, the text, the
createdAt time stamp and the author username.  The nested author object of
the source (tweet.get("author", {}).get("username", "unknown")) is
collapsed to the optional username it yields. -/
structure SUTweet where
  id : Option String
  text : String
  createdAt : Option String
  username : Option String
deriving DecidableEq

/-- The event object built by safe-update.py main (lines 88-108) for a
tweet whose id tid passed the duplicate filter.  now is the processing time
used as the createdAt fallback. -/
def suTweetToEvent (now : String) (t : SUTweet) (tid : String) : Event :=
  { id := some tid, type := "intel", country := "israel",
    title := t.text.take 100, desc := t.text,
    location := (32, 35), locationName := "以色列",
    time := (t.createdAt.getD now).toList,
    source := "@" ++ t.username.getD "unknown",
    tweetId := some (some tid),
    url := "https://twitter.com/" ++ t.username.getD "unknown" ++ "/status/" ++ tid,
    isNew := true,
    translations :=
      { zh := some { title := some (t.text.take 100), desc := some t.text,
                     locationName := some "以色列" },
        en := none, ar := none } }

/-- The tweet loop of safe-update.py main (lines 78-111): a tweet with a
missing or empty id, or an id already seen, is skipped; otherwise its event
is appended and its id added to the seen set. -/
def suCollect (now : String) : List SUTweet → List (Option String) → List Event
  | [], _ => []
  | t :: ts, seen =>
    match t.id with
    | none => suCollect now ts seen
    | some tid =>
      if tid = "" ∨ some tid ∈ seen then suCollect now ts seen
      else suTweetToEvent now t tid :: suCollect now ts (some tid :: seen)

/-- new_events of safe-update.py main: the collected events, with the seen
set seeded by event.get("tweetId") over the existing events (an absent key
and a null value both contribute None). -/
def suNewEvents (now : String) (existing : List Event) (tweets : List SUTweet) : List Event :=
  suCollect now tweets (existing.map (fun e => e.tweetId.join))

/-- safe-update.py main, lines 115-137: all_events = new_events ++ existing;
if its length dropped below the existing count the script prints an error
and exits 1 without writing; otherwise it writes all_events and exits 0.
The result is the exit code paired with the written events list (none when
nothing is written). -/
def safeUpdateRun (now : String) (existing : List Event) (tweets : List SUTweet) :
    Nat × Option (List Event) :=
  if (suNewEvents now existing tweets ++ existing).length < existing.length then (1, none)
  else (0, some (suNewEvents now existing tweets ++ existing))

/-- twitter-to-events.py main, lines 835-877: when no tweets were fetched
the run returns without writing; otherwise the merge result (default cap
100) is saved unconditionally — no comparison of the merged count against
the existing count guards the write.  The fetched batch is modelled after
parsing (parse_tweet_to_event is total in this model). -/
def twitterRunWrite (existing fetched : List Event) : Option (List Event) :=
  if fetched.isEmpty then none
  else some (merge_events existing fetched 100)

/-- A store of 101 events, one more than the twitter-to-events cap. -/
def ex101 : List Event :=
  (List.range 101).map (fun i => mkEv (some (some (toString i))) none ("2024-01-01"))

/-- C2 counterexample: a twitter-to-events run over a store of 101 events
and a nonempty fetched batch persists the merged result even though the
merged count (capped at 100) is smaller than the existing count, so the
program does not abort before writing when merged < existing. -/
theorem C2_counterexample :
    twitterRunWrite ex101 [evKeyA] = some (merge_events ex101 [evKeyA] 100) ∧
    (merge_events ex101 [evKeyA] 100).length < ex101.length := by
  have h1 : ex101.length = 101 := by simp [ex101]
  constructor
  · rfl
  · unfold merge_events
    rw [List.length_take, List.length_insertionSort, List.length_append, h1]
    omega

/-- C2 amended: the merged-count-versus-existing-count guard exists only in
safe-update.py, where the combined list always contains every existing
event, so that run always persists with exit code 0 and a count at least
the existing count (the exit-1 abort branch is unreachable); the
twitter-to-events run instead persists the capped merge unconditionally
whenever the fetched batch is nonempty, even when the cap makes the merged
count smaller than the existing count. -/
theorem C2_amended (now : String) (existing : List Event) (tweets : List SUTweet)
    (fetched : List Event) (hf : fetched ≠ []) :
    safeUpdateRun now existing tweets =
        (0, some (suNewEvents now existing tweets ++ existing)) ∧
    existing.length ≤ (suNewEvents now existing tweets ++ existing).length ∧
    twitterRunWrite existing fetched = some (merge_events existing fetched 100) := by
  refine ⟨?_, ?_, ?_⟩
  · unfold safeUpdateRun
    rw [if_neg]
    rw [List.length_append]
    omega
  · rw [List.length_append]
    omega
  · unfold twitterRunWrite
    rw [if_neg]
    simp [List.isEmpty_iff, hf]
  
theorem C2_amended_witness :
    safeUpdateRun ("now") [evKeyA] [] =
        (0, some (suNewEvents ("now") [evKeyA] [] ++ [evKeyA])) ∧
    ([evKeyA] : List Event).length ≤ (suNewEvents ("now") [evKeyA] [] ++ [evKeyA]).length ∧
    twitterRunWrite [evKeyA] [evKeyB] = some (merge_events [evKeyA] [evKeyB] 100) :=
  C2_amended ("now") [evKeyA] [] [evKeyB] (by simp)

theorem uniqueNewEvents_eq_nil {l nw : List Event}
    (h : ∀ e ∈ nw, eventKey e ∈ existingKeys l) : uniqueNewEvents l nw = [] := by
  unfold uniqueNewEvents
  rw [List.filter_eq_nil_iff]
  intro e he
  simp only [decide_eq_true_eq, not_not]
  exact h e he

/-- C4 amended: the merge is idempotent with respect to the same new batch
whenever nothing is discarded by the cap, in particular whenever the
existing count plus the new count is at most maxEvents; when the cap does
truncate, a second merge can re-admit a new event whose key had been
considered a duplicate in the first run (see the counterexample). -/
theorem C4_amended (ex nw : List Event) (m : Nat)
    (hlen : ex.length + nw.length ≤ m) :
    merge_events (merge_events ex nw m) nw m = merge_events ex nw m := by
  have hfl : (uniqueNewEvents ex nw).length ≤ nw.length :=
    List.Sublist.length_le (List.filter_sublist _)
  have hsl : (List.insertionSort eventR (ex ++ uniqueNewEvents ex nw)).length ≤ m := by
    rw [List.length_insertionSort, List.length_append]; omega
  have h1 : merge_events ex nw m =
      List.insertionSort eventR (ex ++ uniqueNewEvents ex nw) := by
    unfold merge_events
    exact List.take_of_length_le hsl
  rw [h1]
  have hmemkeys : ∀ e ∈ nw,
      eventKey e ∈ existingKeys (List.insertionSort eventR (ex ++ uniqueNewEvents ex nw)) := by
    intro e he
    have hperm :=
      (List.perm_insertionSort eventR (ex ++ uniqueNewEvents ex nw)).map eventKey
    refine hperm.mem_iff.mpr ?_
    rw [List.map_append, List.mem_append]
    by_cases hk : eventKey e ∈ ex.map eventKey
    · exact Or.inl hk
    · refine Or.inr (List.mem_map.mpr ⟨e, ?_, rfl⟩)
      exact List.mem_filter.mpr ⟨he, by simpa [existingKeys] using hk⟩
  have h2 := uniqueNewEvents_eq_nil hmemkeys
  have hsorted : List.Sorted eventR (List.insertionSort eventR (ex ++ uniqueNewEvents ex nw)) :=
    List.sorted_insertionSort eventR _
  unfold merge_events
  rw [h2, List.append_nil, List.Sorted.insertionSort_eq hsorted]
  exact List.take_of_length_le hsl

theorem C4_amended_witness :
    merge_events (merge_events [evKeyA] [evKeyB] 100) [evKeyB] 100 =
      merge_events [evKeyA] [evKeyB] 100 :=
  C4_amended [evKeyA] [evKeyB] 100 (by decide)

/-- Regular-expression token, covering exactly the constructs occurring in
EVENT_TYPE_PATTERNS of src/scripts/twitter-to-events.py: literal
characters, a character class such as [uo], the greedy wildcard .* and the
optional wildcard .? (the dot never matches a newline, as in Python
without DOTALL). -/
inductive RTok where
  | lit : Char → RTok
  | cls : List Char → RTok
  | dotStar : RTok
  | dotOpt : RTok
deriving DecidableEq

/-- Tokens of a plain-text pattern. -/
def litToks (s : String) : List RTok := s.toList.map RTok.lit

/-- The states of a token list reachable without consuming a character: a
dotStar or a dotOpt at the head may be skipped (zero repetitions), possibly
in a chain.  A state is a remaining token list. -/
def epsClosure : List RTok → List (List RTok)
  | [] => [[]]
  | RTok.lit c :: ts => [RTok.lit c :: ts]
  | RTok.cls cs :: ts => [RTok.cls cs :: ts]
  | RTok.dotStar :: ts => (RTok.dotStar :: ts) :: epsClosure ts
  | RTok.dotOpt :: ts => (RTok.dotOpt :: ts) :: epsClosure ts

/-- One consuming transition of a state on the character x: a literal or a
class consumes a matching character; a dotStar consumes any non-newline
character and remains; a dotOpt consumes any non-newline character and is
spent.  The empty state consumes nothing. -/
def stepState (x : Char) : List RTok → Option (List RTok)
  | RTok.lit c :: ts => if x == c then some ts else none
  | RTok.cls cs :: ts => if cs.contains x then some ts else none
  | RTok.dotStar :: ts => if x == '\n' then none else some (RTok.dotStar :: ts)
  | RTok.dotOpt :: ts => if x == '\n' then none else some ts
  | [] => none

/-- Whether some state of the set has completed the whole pattern, possibly
after skipping trailing wildcards. -/
def anyAccepting (states : List (List RTok)) : Bool :=
  states.any (fun ts => (epsClosure ts).any List.isEmpty)

/-- Simultaneous simulation of all states over the text: the pattern
matches some prefix of the text exactly when some state completes at some
point of the scan.  This is the standard NFA evaluation of the regular
expression; it decides exactly whether Python re would find a match
anchored at the current position (only existence matters to re.search, so
greedy against lazy repetition is irrelevant). -/
def runNFA : List (List RTok) → List Char → Bool
  | states, [] => anyAccepting states
  | states, x :: xs =>
    anyAccepting states ||
      runNFA ((states.flatMap epsClosure).filterMap (stepState x)) xs

/-- Whether the token list matches starting at the current position. -/
def matchHere (ts : List RTok) (xs : List Char) : Bool :=
  runNFA [ts] xs

/-- re.search over the token list: try a match at every start position of
the text, including the final empty position. -/
def reSearch (ts : List RTok) : List Char → Bool
  | [] => matchHere ts []
  | x :: xs => matchHere ts (x :: xs) || reSearch ts xs

/-- ASCII lower-casing of a character list, the model of text.lower()
applied in classify_event_type (all pattern characters are unaffected by
case outside ASCII). -/
def toLowerL (t : List Char) : List Char := t.map Char.toLower

/-- EVENT_TYPE_PATTERNS (src/scripts/twitter-to-events.py lines 163-192) in
the declaration order of the Python dict, which iterates in insertion
order. -/
def EVENT_TYPE_PATTERNS : List (String × List (List RTok)) :=
  [("strike",
    [litToks ("空袭"), litToks ("打击"), litToks ("爆炸"), litToks ("袭击"),
     litToks ("攻击"), litToks ("轰炸"),
     litToks ("airstrike"), litToks ("strike"), litToks ("explosion"),
     litToks ("attack"), litToks ("bombing"),
     litToks ("rocket"), litToks ("missile"), litToks ("drone")]),
   ("blockade",
    [litToks ("封锁"), litToks ("拦截"), litToks ("扣押"), litToks ("登船"),
     litToks ("blockade"), litToks ("intercept"),
     litToks ("seiz") ++ [RTok.cls ['u', 'o']] ++ litToks ("re"),
     litToks ("boarding"),
     litToks ("vessel") ++ [RTok.dotStar] ++ litToks ("not") ++ [RTok.dotStar]
       ++ litToks ("allowed"),
     litToks ("shipping") ++ [RTok.dotStar] ++ litToks ("warning"),
     litToks ("maritime") ++ [RTok.dotStar] ++ litToks ("alert"),
     litToks ("naval") ++ [RTok.dotStar] ++ litToks ("warning"),
     litToks ("ship") ++ [RTok.dotStar] ++ litToks ("banned"),
     litToks ("vessel") ++ [RTok.dotStar] ++ litToks ("banned"),
     litToks ("strait") ++ [RTok.dotStar] ++ litToks ("closed"),
     litToks ("waterway") ++ [RTok.dotStar] ++ litToks ("closed"),
     litToks ("vhf") ++ [RTok.dotStar] ++ litToks ("warning"),
     litToks ("shipping") ++ [RTok.dotStar] ++ litToks ("lane") ++ [RTok.dotStar]
       ++ litToks ("closed"),
     litToks ("passage") ++ [RTok.dotStar] ++ litToks ("denied"),
     litToks ("transit") ++ [RTok.dotStar] ++ litToks ("banned"),
     litToks ("船只") ++ [RTok.dotStar] ++ litToks ("禁止"),
     litToks ("船舶") ++ [RTok.dotStar] ++ litToks ("警告"),
     litToks ("海峡") ++ [RTok.dotStar] ++ litToks ("关闭"),
     litToks ("航道") ++ [RTok.dotStar] ++ litToks ("封锁"),
     litToks ("通行") ++ [RTok.dotStar] ++ litToks ("禁止"),
     litToks ("航海") ++ [RTok.dotStar] ++ litToks ("警告")]),
   ("airspace",
    [litToks ("禁飞"), litToks ("封空"), litToks ("领空"), litToks ("防空"),
     litToks ("no-fly"), litToks ("airspace"),
     litToks ("air") ++ [RTok.dotOpt] ++ litToks ("defen")
       ++ [RTok.cls ['c', 's']] ++ litToks ("e")]),
   ("intel",
    [litToks ("情报"), litToks ("卫星"), litToks ("侦察"), litToks ("雷达"),
     litToks ("监听"),
     litToks ("intelligence"), litToks ("satellite"), litToks ("reconnaissance"),
     litToks ("radar")]),
   ("diplomatic",
    [litToks ("抗议"), litToks ("谈判"), litToks ("外交"), litToks ("声明"),
     litToks ("谴责"), litToks ("警告"),
     litToks ("protest"), litToks ("negotiat"), litToks ("diplomat"),
     litToks ("statement"), litToks ("condemn"), litToks ("warn")])]

/-- The rule loop of classify_event_type: first type with a matching
pattern wins, default intel. -/
def classifyGo : List (String × List (List RTok)) → List Char → String
  | [], _ => "intel"
  | (ty, ps) :: rest, l =>
    if ps.any (fun p => reSearch p l) then ty else classifyGo rest l

/-- classify_event_type (src/scripts/twitter-to-events.py lines 332-343):
lower-case the text, scan the pattern table in declaration order, return
the first type with a match anywhere in the text, default intel. -/
def classify_event_type (text : List Char) : String :=
  classifyGo EVENT_TYPE_PATTERNS (toLowerL text)

theorem classifyGo_default (table : List (String × List (List RTok))) (l : List Char)
    (h : ∀ pr ∈ table, ∀ p ∈ pr.2, reSearch p l = false) :
    classifyGo table l = "intel" := by
  induction table with
  | nil => rfl
  | cons hd tl ih =>
    obtain ⟨ty, ps⟩ := hd
    have hps : ps.any (fun p => reSearch p l) = false := by
      rw [List.any_eq_false]
      intro p hp
      simp [h (ty, ps) (List.mem_cons_self _ _) p hp]
    simp only [classifyGo, hps, Bool.false_eq_true, if_false]
    exact ih (fun pr hpr p hp => h pr (List.mem_cons_of_mem _ hpr) p hp)

theorem classifyGo_first (table : List (String × List (List RTok))) (l : List Char) :
    ∀ i, ∀ hi : i < table.length,
      (table.get ⟨i, hi⟩).2.any (fun p => reSearch p l) = true →
      (∀ pr ∈ table.take i, ∀ p ∈ pr.2, reSearch p l = false) →
      classifyGo table l = (table.get ⟨i, hi⟩).1 := by
  induction table with
  | nil => intro i hi; simp at hi
  | cons hd tl ih =>
    intro i hi hmatch hearlier
    obtain ⟨ty, ps⟩ := hd
    cases i with
    | zero =>
      simp only [List.get] at hmatch
      simp [classifyGo, hmatch]
    | succ j =>
      have hhd : ps.any (fun p => reSearch p l) = false := by
        rw [List.any_eq_false]
        intro p hp
        have hmem : ((ty, ps) : String × List (List RTok)) ∈
            ((ty, ps) :: tl).take (j + 1) := by
          rw [List.take_succ_cons]
          exact List.mem_cons_self _ _
        simp [hearlier (ty, ps) hmem p hp]
      simp only [classifyGo, hhd, Bool.false_eq_true, if_false]
      refine ih j (Nat.lt_of_succ_lt_succ hi) hmatch ?_
      intro pr hpr p hp
      refine hearlier pr ?_ p hp
      rw [List.take_succ_cons]
      exact List.mem_cons_of_mem _ hpr

/-- C5: classify_event_type scans the rule table over the lower-cased text
in declaration order (strike, blockade, airspace, intel, diplomatic),
short-circuiting: the first type one of whose patterns matches anywhere is
returned, and whenever no pattern of any type matches the result is the
fixed default intel. -/
theorem C5_classifier_order (t : List Char) :
    EVENT_TYPE_PATTERNS.map Prod.fst =
        [("strike" : String), "blockade", "airspace", "intel", "diplomatic"] ∧
    ((∀ pr ∈ EVENT_TYPE_PATTERNS, ∀ p ∈ pr.2, reSearch p (toLowerL t) = false) →
        classify_event_type t = "intel") ∧
    (∀ i, ∀ hi : i < EVENT_TYPE_PATTERNS.length,
        (EVENT_TYPE_PATTERNS.get ⟨i, hi⟩).2.any (fun p => reSearch p (toLowerL t)) = true →
        (∀ pr ∈ EVENT_TYPE_PATTERNS.take i, ∀ p ∈ pr.2, reSearch p (toLowerL t) = false) →
        classify_event_type t = (EVENT_TYPE_PATTERNS.get ⟨i, hi⟩).1) :=
  ⟨by rfl,
   fun h => classifyGo_default _ _ h,
   fun i hi h1 h2 => classifyGo_first _ _ i hi h1 h2⟩

theorem C5_witness : classify_event_type (("Airspace").toList) = "airspace" :=
  (C5_classifier_order (("Airspace").toList)).2.2 2 (by decide) (by decide) (by decide)

/-- Python str.strip() on a character list: leading and trailing whitespace
removed (the texts under study only carry ASCII whitespace). -/
def pyStripL (s : List Char) : List Char :=
  ((s.dropWhile Char.isWhitespace).reverse.dropWhile Char.isWhitespace).reverse

/-- Accumulator loop for str.rfind(' '): i is the index of the head of the
remaining list, acc the last space index seen so far (-1 when none). -/
def rfindSpaceGo : List Char → Nat → Int → Int
  | [], _, acc => acc
  | c :: cs, i, acc => rfindSpaceGo cs (i + 1) (if c = ' ' then (i : Int) else acc)

/-- title.rfind(' '): index of the last space character, -1 when absent. -/
def rfindSpace (s : List Char) : Int := rfindSpaceGo s 0 (-1)

/-- The title construction of parse_tweet_to_event
(src/scripts/twitter-to-events.py lines 425-430): title = text[:50].strip();
only when the text exceeds 50 characters and the last space of that
stripped prefix lies at an index above 30 is the title cut at that space
and an ellipsis appended; otherwise the stripped prefix stands unchanged. -/
def buildTitle (text : List Char) : List Char :=
  if 50 < text.length then
    if 30 < rfindSpace (pyStripL (text.take 50)) then
      (pyStripL (text.take 50)).take (rfindSpace (pyStripL (text.take 50))).toNat
        ++ [ '.', '.', '.']
    else pyStripL (text.take 50)
  else pyStripL (text.take 50)

/-- C6 counterexample: a 60-character body with no space yields a title of
the first 50 characters with no ellipsis marker appended, although the body
exceeds the title limit. -/
theorem C6_counterexample :
    50 < (List.replicate 60 'a').length ∧
    buildTitle (List.replicate 60 'a') = List.replicate 50 'a' ∧
    (buildTitle (List.replicate 60 'a')).getLast? = some 'a' := by decide

/-- C6 amended: for a body longer than 50 characters the title is the
stripped 50-character prefix; it is trimmed to the last space and given an
ellipsis marker only when that space lies at an index above 30; a prefix
without such a space (none at all, or only at index at most 30) is kept
verbatim with no ellipsis. -/
theorem C6_amended (text : List Char) (h : 50 < text.length) :
    (30 < rfindSpace (pyStripL (text.take 50)) →
        buildTitle text =
          (pyStripL (text.take 50)).take (rfindSpace (pyStripL (text.take 50))).toNat
            ++ [ '.', '.', '.']) ∧
    (rfindSpace (pyStripL (text.take 50)) ≤ 30 →
        buildTitle text = pyStripL (text.take 50)) := by
  constructor
  · intro hs
    unfold buildTitle
    rw [if_pos h, if_pos hs]
  · intro hs
    unfold buildTitle
    rw [if_pos h, if_neg (by omega)]

def t6 : List Char := ("Breaking news tonight missile strikes reported near the city").toList

theorem C6_witness :
    buildTitle t6 =
      (pyStripL (t6.take 50)).take (rfindSpace (pyStripL (t6.take 50))).toNat
        ++ [ '.', '.', '.'] :=
  (C6_amended t6 (by decide)).1 (by decide)

/-- Whether a character lies in the Arabic Unicode range U+0600 to U+06FF,
the test used by both detection heuristics. -/
def isArabicChar (c : Char) : Bool := decide (0x600 ≤ c.toNat ∧ c.toNat ≤ 0x6FF)

/-- Whether ord(c) > 127. -/
def isNonAscii (c : Char) : Bool := decide (127 < c.toNat)

/-- detect_language (src/scripts/translate-existing-events.py lines 34-47):
empty text gives auto; any Arabic-range character gives ar; otherwise any
non-ASCII character gives zh-CN; otherwise en. -/
def detect_language (t : List Char) : String :=
  if t = [] then "auto"
  else if t.any isArabicChar then "ar"
  else if t.any isNonAscii then "zh-CN"
  else "en"

/-- The original-language detection inlined in create_translated_content
(src/scripts/twitter-to-events.py lines 290-297): any non-ASCII character
outside the Arabic range gives zh; otherwise any Arabic-range character
gives ar; otherwise en.  Note the order differs from detect_language. -/
def detectOriginalLang (title : List Char) : String :=
  if title.any (fun c => isNonAscii c && !(isArabicChar c)) then "zh"
  else if title.any isArabicChar then "ar"
  else "en"

/-- C7 counterexample: a title containing both an Arabic-range character
and a non-Arabic non-ASCII character is detected as zh, not ar, by the
create_translated_content heuristic, because that code checks the Chinese
condition first. -/
theorem C7_counterexample :
    (['中', 'ش'].any isArabicChar = true) ∧
    (['中', 'ش'].any isNonAscii = true) ∧
    detectOriginalLang ['中', 'ش'] = "zh" ∧
    detectOriginalLang ['中', 'ش'] ≠ "ar" := by decide

/-- C7 amended: detect_language in the translate script behaves exactly as
claimed for nonempty text, Arabic-range first (empty text yields auto);
the heuristic inside create_translated_content instead checks non-Arabic
non-ASCII characters first, so a text containing both Arabic and other
non-ASCII characters is detected as zh there, and as ar only when every
non-ASCII character is Arabic-range. -/
theorem C7_amended (t : List Char) :
    (t ≠ [] → t.any isArabicChar = true → detect_language t = "ar") ∧
    (t ≠ [] → t.any isArabicChar = false → t.any isNonAscii = true →
        detect_language t = "zh-CN") ∧
    (t ≠ [] → t.any isNonAscii = false → detect_language t = "en") ∧
    (t.any (fun c => isNonAscii c && !(isArabicChar c)) = true →
        detectOriginalLang t = "zh") ∧
    (t.any (fun c => isNonAscii c && !(isArabicChar c)) = false →
        t.any isArabicChar = true → detectOriginalLang t = "ar") := by
  refine ⟨?_, ?_, ?_, ?_, ?_⟩
  · intro h1 h2
    simp [detect_language, h1, h2]
  · intro h1 h2 h3
    simp [detect_language, h1, h2, h3]
  · intro h1 h2
    have har : t.any isArabicChar = false := by
      rw [List.any_eq_false] at h2 ⊢
      intro c hc hcA
      apply h2 c hc
      simp only [isArabicChar, decide_eq_true_eq] at hcA
      simp only [isNonAscii, decide_eq_true_eq]
      omega
    simp [detect_language, h1, h2, har]
  · intro h
    simp [detectOriginalLang, h]
  · intro h1 h2
    simp [detectOriginalLang, h1, h2]

theorem C7_witness :
    detect_language ['ش'] = "ar" ∧ detectOriginalLang ['中'] = "zh" :=
  ⟨(C7_amended ['ش']).1 (by decide) (by decide),
   (C7_amended ['中']).2.2.2.1 (by decide)⟩

/-- Whether a URL match of re.sub(r"https?://\S+", "", key) begins at the
head of the list: the scheme http:// or https:// with at least one
following non-whitespace character. -/
def urlAt (l : List Char) : Bool :=
  (List.isPrefixOf (("http://").toList) l &&
      match l.drop 7 with
      | [] => false
      | c :: _ => !c.isWhitespace) ||
  (List.isPrefixOf (("https://").toList) l &&
      match l.drop 8 with
      | [] => false
      | c :: _ => !c.isWhitespace)

/-- Character-by-character removal of URL tokens, the model of
re.sub(r"https?://\S+", "", key): when a match starts at the current
position the whole maximal non-whitespace run from there (scheme included,
by greediness of the Unicode-aware non-space class) is dropped, and
scanning resumes at the terminating whitespace; true flags being inside a
dropped token. -/
def stripURLsGo : Bool → List Char → List Char
  | _, [] => []
  | true, c :: cs =>
    if c.isWhitespace then c :: stripURLsGo false cs else stripURLsGo true cs
  | false, c :: cs =>
    if urlAt (c :: cs) then stripURLsGo true cs else c :: stripURLsGo false cs

def stripURLs (l : List Char) : List Char := stripURLsGo false l

/-- str.split() with an accumulator for the current word (reversed). -/
def wordsAux : List Char → List Char → List (List Char)
  | acc, [] => if acc.isEmpty then [] else [acc.reverse]
  | acc, c :: cs =>
    if c.isWhitespace then
      if acc.isEmpty then wordsAux [] cs else acc.reverse :: wordsAux [] cs
    else wordsAux (c :: acc) cs

/-- " ".join of the word list. -/
def joinSpace : List (List Char) → List Char
  | [] => []
  | [w] => w
  | w :: ws => w ++ ' ' :: joinSpace ws

/-- " ".join(key.split()): whitespace runs collapsed to single spaces,
leading and trailing whitespace removed. -/
def collapseWS (l : List Char) : List Char := joinSpace (wordsAux [] l)

/-- The deduplication key of add_ticker_item
(src/scripts/twitter-to-events.py lines 674-681), computed in the order of
the code: first 40 characters, lower-cased, stripped, URLs removed,
whitespace collapsed. -/
def tickerKey (text : List Char) : List Char :=
  collapseWS (stripURLs (pyStripL (toLowerL (text.take 40))))

/-- Modelled from the spec: the key construction in the order the
specification words it — lower-cased, URLs stripped, whitespace collapsed,
and then the first 40 characters.  Stated only for comparison with
tickerKey, which the code computes with the truncation first. -/
def specTickerKey (text : List Char) : List Char :=
  (collapseWS (stripURLs (toLowerL text))).take 40

/-- A raw news item as consumed by create_ticker_texts: optional text and
title fields. -/
structure NewsItem where
  text : Option String
  title : Option String
deriving DecidableEq

/-- A raw tweet as consumed by create_ticker_texts: optional text and
full_text fields, and the author username (the nested author or user
object collapsed to the username it yields). -/
structure TweetItem where
  text : Option String
  full_text : Option String
  username : Option String
deriving DecidableEq

/-- Python a or b for string fields: the first operand unless it is falsy
(absent or empty). -/
def orElseStr (a : Option String) (b : String) : String :=
  match a with
  | some s => if s = "" then b else s
  | none => b

/-- item.get("text") or item.get("title", ""). -/
def newsTextOf (n : NewsItem) : String := orElseStr n.text (n.title.getD "")

/-- Substring membership, Python needle in hay. -/
def containsSub (needle : List Char) : List Char → Bool
  | [] => needle.isEmpty
  | x :: xs => List.isPrefixOf needle (x :: xs) || containsSub needle xs

/-- ME_KEYWORDS (src/scripts/twitter-to-events.py lines 229-238). -/
def ME_KEYWORDS : List String :=
  ["israel", "iran", "gaza", "hamas", "hezbollah",
   "以色列", "伊朗", "加沙", "哈马斯", "真主党",
   "middle east", "中东", "syria", "叙利亚",
   "yemen", "也门", "red sea", "红海",
   "hormuz", "霍尔木兹", "lebanon", "黎巴嫩",
   "palestine", "巴勒斯坦", "west bank", "约旦河西岸",
   "tel aviv", "特拉维夫", "jerusalem", "耶路撒冷",
   "tehran", "德黑兰", "gulf", "海湾", "波斯湾"]

/-- is_news_relevant (src/scripts/twitter-to-events.py lines 585-588). -/
def is_news_relevant (n : NewsItem) : Bool :=
  ME_KEYWORDS.any
    (fun kw => containsSub (toLowerL kw.toList) (toLowerL (newsTextOf n).toList))

/-- The mutable state of create_ticker_texts: the seen dedup keys and the
formatted ticker entries collected so far (the three language buckets
receive identical entries, so one list suffices until the final record is
assembled). -/
structure TickerAcc where
  seenKeys : List (List Char)
  items : List (List Char)
deriving DecidableEq

/-- The formatted ticker string of add_ticker_item: with an author the
pattern is the bolt, at-handle, colon and the first 80 characters of the
text; without, the bolt and the first 100 characters. -/
def tickerFormat (text : List Char) (author : Option String) : List Char :=
  match author with
  | some a => ("⚡ @").toList ++ a.toList ++ (": ").toList ++ text.take 80
  | none => ("⚡ ").toList ++ text.take 100

/-- add_ticker_item (src/scripts/twitter-to-events.py lines 674-697): an
item whose key was already seen, or whose key is shorter than 10
characters, adds nothing; otherwise the formatted entry is appended and the
key recorded. -/
def addTickerItem (acc : TickerAcc) (text : List Char) (author : Option String) : TickerAcc :=
  if acc.seenKeys.contains (tickerKey text) || decide ((tickerKey text).length < 10) then acc
  else { seenKeys := acc.seenKeys ++ [tickerKey text],
         items := acc.items ++ [tickerFormat text author] }

/-- The news loop of create_ticker_texts (lines 700-703): only nonempty,
Middle-East-relevant items are offered to add_ticker_item, with no
author. -/
def tickerAddNews (acc : TickerAcc) : List NewsItem → TickerAcc
  | [] => acc
  | n :: ns =>
    if decide (newsTextOf n ≠ "") && is_news_relevant n then
      tickerAddNews (addTickerItem acc (newsTextOf n).toList none) ns
    else tickerAddNews acc ns

/-- The tweet loop of create_ticker_texts (lines 706-712): every nonempty
tweet text is offered with its author handle. -/
def tickerAddTweets (acc : TickerAcc) : List TweetItem → TickerAcc
  | [] => acc
  | t :: ts =>
    if decide (orElseStr t.text (t.full_text.getD "") ≠ "") then
      tickerAddTweets
        (addTickerItem acc (orElseStr t.text (t.full_text.getD "")).toList
          (some (t.username.getD "unknown"))) ts
    else tickerAddTweets acc ts

/-- The per-language result of create_ticker_texts; the three buckets carry
the same entries. -/
structure TickerTexts where
  zh : List (List Char)
  en : List (List Char)
  ar : List (List Char)
deriving DecidableEq

/-- create_ticker_texts (src/scripts/twitter-to-events.py lines 663-719):
feed the first 15 news items and the first 10 tweets through
add_ticker_item against one shared seen-key set, then cap each language
bucket at 15 entries. -/
def create_ticker_texts (news : List NewsItem) (tweets : List TweetItem) : TickerTexts :=
  { zh := (tickerAddTweets (tickerAddNews ⟨[], []⟩ (news.take 15)) (tweets.take 10)).items.take 15,
    en := (tickerAddTweets (tickerAddNews ⟨[], []⟩ (news.take 15)) (tweets.take 10)).items.take 15,
    ar := (tickerAddTweets (tickerAddNews ⟨[], []⟩ (news.take 15)) (tweets.take 10)).items.take 15 }

def tw1 : TweetItem :=
  { text := some "news http://a.io gulf strike now under way in hormuz region",
    full_text := none, username := some "a" }

def tw2 : TweetItem :=
  { text := some "news http://bb.io gulf strike now under way in hormuz region",
    full_text := none, username := some "b" }

/-- C8 counterexample: the two tweet texts agree on the key built in the
order the claim states it (lower-case, strip URLs, collapse whitespace,
then take 40 characters), yet the code keys differ, because the code cuts
to 40 characters before stripping the URL and the cut falls inside the URL
differently; both candidates therefore produce ticker entries. -/
theorem C8_counterexample :
    specTickerKey (("news http://a.io gulf strike now under way in hormuz region").toList) =
      specTickerKey (("news http://bb.io gulf strike now under way in hormuz region").toList) ∧
    tickerKey (("news http://a.io gulf strike now under way in hormuz region").toList) ≠
      tickerKey (("news http://bb.io gulf strike now under way in hormuz region").toList) ∧
    (create_ticker_texts [] [tw1, tw2]).en.length = 2 := by decide

/-- C8 amended: add_ticker_item deduplicates by the key computed as first
40 characters, then lower-cased, stripped, URLs removed and whitespace
collapsed: a candidate whose key was already recorded adds nothing, a
candidate whose key is shorter than the minimum meaningful length 10 is
discarded, and any other candidate appends exactly one formatted entry and
records its key.  Texts equal under the spec-ordered key construction need
not deduplicate when the 40-character cut intersects a URL. -/
theorem C8_amended (acc : TickerAcc) (text : List Char) (author : Option String) :
    (acc.seenKeys.contains (tickerKey text) = true →
        addTickerItem acc text author = acc) ∧
    ((tickerKey text).length < 10 → addTickerItem acc text author = acc) ∧
    (acc.seenKeys.contains (tickerKey text) = false → 10 ≤ (tickerKey text).length →
        (addTickerItem acc text author).items = acc.items ++ [tickerFormat text author] ∧
        (addTickerItem acc text author).seenKeys = acc.seenKeys ++ [tickerKey text]) := by
  refine ⟨?_, ?_, ?_⟩
  · intro h
    have hmem : tickerKey text ∈ acc.seenKeys := by simpa using h
    simp [addTickerItem, hmem]
  · intro h
    simp [addTickerItem, h]
  · intro h1 h2
    have hnmem : tickerKey text ∉ acc.seenKeys := by simpa using h1
    have h3 : ¬ (tickerKey text).length < 10 := Nat.not_lt.mpr h2
    simp [addTickerItem, hnmem, h3]

theorem C8_amended_witness :
    (addTickerItem ⟨[], []⟩ (("breaking news about the gulf conflict").toList) none).items =
      [] ++ [tickerFormat (("breaking news about the gulf conflict").toList) none] ∧
    (addTickerItem ⟨[], []⟩ (("breaking news about the gulf conflict").toList) none).seenKeys =
      [] ++ [tickerKey (("breaking news about the gulf conflict").toList)] :=
  (C8_amended ⟨[], []⟩ (("breaking news about the gulf conflict").toList) none).2.2
    (by decide) (by decide)

/-- Python truthiness of an optional string field: present and nonempty. -/
def truthy : Option String → Bool
  | some s => decide (s ≠ "")
  | none => false

/-- desc_short of complete_translations: the source description truncated
to 200 characters with an ellipsis when longer. -/
def descShort (s : String) : String :=
  if 200 < s.length then s.take 200 ++ "..." else s

/-- Title step of the per-language loop of complete_translations
(src/scripts/translate-existing-events.py lines 102-108): translate and
write the title only when it is currently missing (absent or empty), the
source title is nonempty and the translator tr returns a value. -/
def updTitle (tr : String → String → Option String) (target sTitle : String)
    (entry : TransEntry) : TransEntry :=
  if !(truthy entry.title) && decide (sTitle ≠ "") then
    match tr sTitle target with
    | some v => { entry with title := some v }
    | none => entry
  else entry

/-- Description step (lines 111-118), translating desc_short. -/
def updDesc (tr : String → String → Option String) (target sDesc : String)
    (entry : TransEntry) : TransEntry :=
  if !(truthy entry.desc) && decide (sDesc ≠ "") then
    match tr (descShort sDesc) target with
    | some v => { entry with desc := some v }
    | none => entry
  else entry

/-- Location-name step (lines 121-127). -/
def updLoc (tr : String → String → Option String) (target sLoc : String)
    (entry : TransEntry) : TransEntry :=
  if !(truthy entry.locationName) && decide (sLoc ≠ "") then
    match tr sLoc target with
    | some v => { entry with locationName := some v }
    | none => entry
  else entry

/-- One target language of complete_translations: the three field steps in
code order. -/
def completeLang (tr : String → String → Option String)
    (target sTitle sDesc sLoc : String) (entry : TransEntry) : TransEntry :=
  updLoc tr target sLoc (updDesc tr target sDesc (updTitle tr target sTitle entry))

/-- Source texts of complete_translations (lines 80-89): the zh translation
fields when the zh entry exists with a nonempty title, otherwise the
top-level title, desc and locationName of the event. -/
def srcFields (e : Event) : String × String × String :=
  match e.translations.zh with
  | some z =>
    if truthy z.title then
      (z.title.getD "", z.desc.getD e.desc, z.locationName.getD e.locationName)
    else (e.title, e.desc, e.locationName)
  | none => (e.title, e.desc, e.locationName)

/-- The empty translation record inserted by trans[target] = {} for a
target language absent from the translations mapping. -/
def emptyEntry : TransEntry := { title := none, desc := none, locationName := none }

/-- complete_translations (src/scripts/translate-existing-events.py lines
76-131): complete the missing en and ar fields from the chosen source
texts through the translator tr, leaving the zh entry and every other
event field untouched. -/
def complete_translations (tr : String → String → Option String) (e : Event) : Event :=
  { e with translations :=
      { zh := e.translations.zh,
        en := some (completeLang tr ("en") (srcFields e).1 (srcFields e).2.1
                      (srcFields e).2.2 (e.translations.en.getD emptyEntry)),
        ar := some (completeLang tr ("ar") (srcFields e).1 (srcFields e).2.1
                      (srcFields e).2.2 (e.translations.ar.getD emptyEntry)) } }

theorem updTitle_desc (tr : String → String → Option String) (tg s : String)
    (e : TransEntry) : (updTitle tr tg s e).desc = e.desc := by
  unfold updTitle
  split
  · cases tr s tg <;> rfl
  · rfl

theorem updTitle_loc (tr : String → String → Option String) (tg s : String)
    (e : TransEntry) : (updTitle tr tg s e).locationName = e.locationName := by
  unfold updTitle
  split
  · cases tr s tg <;> rfl
  · rfl

theorem updTitle_title (tr : String → String → Option String) (tg s : String)
    (e : TransEntry) (h : truthy e.title = true) : (updTitle tr tg s e).title = e.title := by
  unfold updTitle
  rw [if_neg]
  simp [h]

theorem updDesc_title (tr : String → String → Option String) (tg s : String)
    (e : TransEntry) : (updDesc tr tg s e).title = e.title := by
  unfold updDesc
  split
  · cases tr (descShort s) tg <;> rfl
  · rfl

theorem updDesc_loc (tr : String → String → Option String) (tg s : String)
    (e : TransEntry) : (updDesc tr tg s e).locationName = e.locationName := by
  unfold updDesc
  split
  · cases tr (descShort s) tg <;> rfl
  · rfl

theorem updDesc_desc (tr : String → String → Option String) (tg s : String)
    (e : TransEntry) (h : truthy e.desc = true) : (updDesc tr tg s e).desc = e.desc := by
  unfold updDesc
  rw [if_neg]
  simp [h]

theorem updLoc_title (tr : String → String → Option String) (tg s : String)
    (e : TransEntry) : (updLoc tr tg s e).title = e.title := by
  unfold updLoc
  split
  · cases tr s tg <;> rfl
  · rfl

theorem updLoc_desc (tr : String → String → Option String) (tg s : String)
    (e : TransEntry) : (updLoc tr tg s e).desc = e.desc := by
  unfold updLoc
  split
  · cases tr s tg <;> rfl
  · rfl

theorem updLoc_loc (tr : String → String → Option String) (tg s : String)
    (e : TransEntry) (h : truthy e.locationName = true) :
    (updLoc tr tg s e).locationName = e.locationName := by
  unfold updLoc
  rw [if_neg]
  simp [h]

/-- The output entry extends the input entry: a filled (present nonempty)
field keeps its exact value, and a field that changed was previously
missing. -/
def entryExtends (old new : TransEntry) : Prop :=
  (truthy old.title = true → new.title = old.title) ∧
  (new.title ≠ old.title → truthy old.title = false) ∧
  (truthy old.desc = true → new.desc = old.desc) ∧
  (new.desc ≠ old.desc → truthy old.desc = false) ∧
  (truthy old.locationName = true → new.locationName = old.locationName) ∧
  (new.locationName ≠ old.locationName → truthy old.locationName = false)

theorem completeLang_extends (tr : String → String → Option String)
    (tg a b c : String) (e : TransEntry) :
    entryExtends e (completeLang tr tg a b c e) := by
  have htitle : (completeLang tr tg a b c e).title = (updTitle tr tg a e).title := by
    unfold completeLang
    rw [updLoc_title, updDesc_title]
  have hdesc : (completeLang tr tg a b c e).desc =
      (updDesc tr tg b (updTitle tr tg a e)).desc := by
    unfold completeLang
    rw [updLoc_desc]
  have hloc0 : (updDesc tr tg b (updTitle tr tg a e)).locationName = e.locationName := by
    rw [updDesc_loc, updTitle_loc]
  refine ⟨?_, ?_, ?_, ?_, ?_, ?_⟩
  · intro h
    rw [htitle, updTitle_title tr tg a e h]
  · intro hne
    cases htr : truthy e.title
    · rfl
    · exact absurd (by rw [htitle, updTitle_title tr tg a e htr]) hne
  · intro h
    rw [hdesc, updDesc_desc]
    · exact updTitle_desc tr tg a e
    · rw [updTitle_desc]
      exact h
  · intro hne
    cases htr : truthy e.desc
    · rfl
    · refine absurd ?_ hne
      rw [hdesc, updDesc_desc]
      · exact updTitle_desc tr tg a e
      · rw [updTitle_desc]
        exact htr
  · intro h
    unfold completeLang
    rw [updLoc_loc]
    · exact hloc0
    · rw [hloc0]
      exact h
  · intro hne
    cases htr : truthy e.locationName
    · rfl
    · refine absurd ?_ hne
      show (completeLang tr tg a b c e).locationName = e.locationName
      unfold completeLang
      rw [updLoc_loc]
      · exact hloc0
      · rw [hloc0]
        exact htr

/-- C9: translation completion only adds missing translation fields: the
identity and content fields of the event and its zh entry are unchanged,
and in each of the en and ar slots every already-present nonempty field
keeps its exact value — only absent or empty fields can differ after the
run. -/
theorem C9_translation_frame (tr : String → String → Option String) (e : Event) :
    ((complete_translations tr e).id = e.id ∧
     (complete_translations tr e).type = e.type ∧
     (complete_translations tr e).country = e.country ∧
     (complete_translations tr e).location = e.location ∧
     (complete_translations tr e).time = e.time ∧
     (complete_translations tr e).source = e.source ∧
     (complete_translations tr e).url = e.url ∧
     (complete_translations tr e).tweetId = e.tweetId ∧
     (complete_translations tr e).isNew = e.isNew ∧
     (complete_translations tr e).title = e.title ∧
     (complete_translations tr e).desc = e.desc ∧
     (complete_translations tr e).locationName = e.locationName ∧
     (complete_translations tr e).translations.zh = e.translations.zh) ∧
    entryExtends (e.translations.en.getD emptyEntry)
      ((complete_translations tr e).translations.en.getD emptyEntry) ∧
    entryExtends (e.translations.ar.getD emptyEntry)
      ((complete_translations tr e).translations.ar.getD emptyEntry) := by
  refine ⟨⟨rfl, rfl, rfl, rfl, rfl, rfl, rfl, rfl, rfl, rfl, rfl, rfl, rfl⟩, ?_, ?_⟩
  · exact completeLang_extends tr ("en") (srcFields e).1 (srcFields e).2.1
      (srcFields e).2.2 (e.translations.en.getD emptyEntry)
  · exact completeLang_extends tr ("ar") (srcFields e).1 (srcFields e).2.1
      (srcFields e).2.2 (e.translations.ar.getD emptyEntry)

def tr0 : String → String → Option String := fun _ _ => some ("T")

def e9 : Event :=
  { mkEv none (some "e9") "2024-01-01" with
    title := "标题", desc := "描述", locationName := "地点",
    translations :=
      { zh := some { title := some "标题", desc := some "描述",
                     locationName := some "地点" },
        en := some { title := some "Existing", desc := none, locationName := none },
        ar := none } }

theorem C9_witness :
    (complete_translations tr0 e9).translations.zh = e9.translations.zh ∧
    ((complete_translations tr0 e9).translations.en.getD emptyEntry).title =
      ((e9.translations.en.getD emptyEntry)).title ∧
    (complete_translations tr0 e9).id = e9.id := by
  obtain ⟨⟨h1, h2, h3, h4, h5, h6, h7, h8, h9, h10, h11, h12, h13⟩, hen, har⟩ :=
    C9_translation_frame tr0 e9
  exact ⟨h13, hen.1 (by decide), h1⟩
